import Mathlib

/-!
Verification of the GraphOptim rotation-averaging engine against its
natural-language specification.

The development shallowly embeds the relevant C++ sources:
  * `solver/l1_solver.h`              (ADMM-based L1 solver)
  * `rotation_averaging/irls_rotation_local_refiner.cc`
  * `rotation_averaging/lagrange_dual_rotation_estimator.cc`

Doubles are modelled as real numbers.  Code that is part of the repository
but not available here (the Eigen/custom sparse Cholesky backend, the
Spectra eigensolver, the three SDP backends, and the ceres rotation
conversions) is modelled either as an oracle parameter (a function standing
for the backend's deterministic result) or, where a concrete value is
needed, by a definition marked `Modelled from the spec:`.
-/

namespace Gopt

open scoped Classical

/-! ## Vectors and norms -/

/-- A 3-vector of doubles (`Eigen::Vector3d`). -/
abbrev V3 := Fin 3 → ℝ

/-- Squared Euclidean norm of a vector (`Eigen`'s `squaredNorm`). -/
noncomputable def sqnorm {n : ℕ} (v : Fin n → ℝ) : ℝ := ∑ i, v i ^ 2

/-- Euclidean norm of a vector (`Eigen`'s `norm`). -/
noncomputable def vnorm {n : ℕ} (v : Fin n → ℝ) : ℝ := Real.sqrt (sqnorm v)

theorem sqnorm_zero {n : ℕ} : sqnorm (0 : Fin n → ℝ) = 0 := by
  simp [sqnorm]

theorem vnorm_zero {n : ℕ} : vnorm (0 : Fin n → ℝ) = 0 := by
  simp [vnorm, sqnorm_zero]

theorem sqnorm_nonneg {n : ℕ} (v : Fin n → ℝ) : 0 ≤ sqnorm v :=
  Finset.sum_nonneg fun i _ => sq_nonneg (v i)

theorem vnorm_nonneg {n : ℕ} (v : Fin n → ℝ) : 0 ≤ vnorm v :=
  Real.sqrt_nonneg _

/-! ## L1 ADMM solver (`solver/l1_solver.h`)

The sparse Cholesky backend (`math/sparse_cholesky_llt.h`) is not among the
available sources.  The constructor factorizes `AᵀA` once and every
iteration solves `(AᵀA)⁻¹ rhs`; we model the factored solve as a caller
supplied function `linSolve` from right-hand sides to solutions, standing
for a successful backend (spec 4.2: `Solve(b)` returns `M⁻¹ b`). -/

/-- Options of `L1Solver` (`l1_solver.h`, lines 56-65). -/
structure L1SolverOptions where
  max_num_iterations : ℕ
  rho : ℝ
  alpha : ℝ
  absolute_tolerance : ℝ
  relative_tolerance : ℝ

/-- The default option values of `L1Solver::Options`. -/
noncomputable def defaultL1Options : L1SolverOptions :=
  ⟨1000, 1, 1, 1 / 10000, 1 / 100⟩

/-- `L1Solver::Shrinkage` (lines 162-167): elementwise
`max(0, v - κ) - max(0, -v - κ)`. -/
noncomputable def shrinkage {m : ℕ} (v : Fin m → ℝ) (κ : ℝ) : Fin m → ℝ :=
  fun i => max 0 (v i - κ) - max 0 (-v i - κ)

/-- The mutable per-iteration state of `L1Solver::Solve`:
`x`, `z`, `z_old` and `u`. -/
@[ext]
structure AdmmState (m n : ℕ) where
  x : Fin n → ℝ
  z : Fin m → ℝ
  zOld : Fin m → ℝ
  u : Fin m → ℝ

/-- The x-update (line 109): `x = (AᵀA)⁻¹ Aᵀ (b + z - u)`, the factored
solve being `linSolve`. -/
noncomputable def admmX {m n : ℕ} (A : Matrix (Fin m) (Fin n) ℝ)
    (b : Fin m → ℝ) (linSolve : (Fin n → ℝ) → Fin n → ℝ)
    (s : AdmmState m n) : Fin n → ℝ :=
  linSolve (A.transpose.mulVec (b + s.z - s.u))

/-- The over-relaxed `ax_hat` (lines 116-118):
`α·(A x) + (1 - α)·(z + b)`. -/
noncomputable def admmAxhat {m n : ℕ} (opts : L1SolverOptions)
    (A : Matrix (Fin m) (Fin n) ℝ) (b : Fin m → ℝ)
    (linSolve : (Fin n → ℝ) → Fin n → ℝ) (s : AdmmState m n) : Fin m → ℝ :=
  opts.alpha • A.mulVec (admmX A b linSolve s) + (1 - opts.alpha) • (s.z + b)

/-- One iteration of the ADMM loop body (`Solve`, lines 108-125):
x-update, over-relaxation, z-update with shrinkage, u-update. -/
noncomputable def admmIter {m n : ℕ} (opts : L1SolverOptions)
    (A : Matrix (Fin m) (Fin n) ℝ) (b : Fin m → ℝ)
    (linSolve : (Fin n → ℝ) → Fin n → ℝ) (s : AdmmState m n) : AdmmState m n :=
  let x := admmX A b linSolve s
  let axhat := admmAxhat opts A b linSolve s
  let z := shrinkage (axhat - b + s.u) (1 / opts.rho)
  let u := s.u + axhat - z - b
  ⟨x, z, s.z, u⟩

/-- The convergence test evaluated at the end of an iteration
(lines 127-147), expressed on the post-iteration state: the primal residual
`‖Ax - z - b‖` must be below
`√(rows)·ε_abs + ε_rel·max(‖Ax‖, ‖z‖, ‖b‖)` and the dual residual
`‖-ρ·Aᵀ(z - z_old)‖` below `√(cols)·ε_abs + ε_rel·‖ρ·Aᵀu‖`. -/
noncomputable def admmConverged {m n : ℕ} (opts : L1SolverOptions)
    (A : Matrix (Fin m) (Fin n) ℝ) (b : Fin m → ℝ) (s : AdmmState m n) : Prop :=
  let aTimesX := A.mulVec s.x
  let rNorm := vnorm (aTimesX - s.z - b)
  let sNorm := vnorm ((-opts.rho) • A.transpose.mulVec (s.z - s.zOld))
  let maxNorm := max (max (vnorm aTimesX) (vnorm s.z)) (vnorm b)
  let primalEps := Real.sqrt m * opts.absolute_tolerance +
    opts.relative_tolerance * maxNorm
  let dualEps := Real.sqrt n * opts.absolute_tolerance +
    opts.relative_tolerance * vnorm (opts.rho • A.transpose.mulVec s.u)
  rNorm < primalEps ∧ sNorm < dualEps

/-- The iteration loop of `L1Solver::Solve` (lines 107-149), by fuel.
Returns the final state together with the number of iterations executed;
the loop breaks at the first iteration whose convergence test holds. -/
noncomputable def admmLoop {m n : ℕ} (opts : L1SolverOptions)
    (A : Matrix (Fin m) (Fin n) ℝ) (b : Fin m → ℝ)
    (linSolve : (Fin n → ℝ) → Fin n → ℝ) :
    ℕ → AdmmState m n → AdmmState m n × ℕ
  | 0, s => (s, 0)
  | fuel + 1, s =>
    let s' := admmIter opts A b linSolve s
    if admmConverged opts A b s' then (s', 1)
    else
      let r := admmLoop opts A b linSolve fuel s'
      (r.1, r.2 + 1)

/-- `L1Solver::Solve` (lines 87-150): run the ADMM loop for at most
`max_num_iterations` iterations, starting from the caller's `x` and with
`z = u = 0`.  The first component's `x` field is the returned solution;
the second component counts the iterations executed. -/
noncomputable def l1Solve {m n : ℕ} (opts : L1SolverOptions)
    (A : Matrix (Fin m) (Fin n) ℝ) (b : Fin m → ℝ) (x0 : Fin n → ℝ)
    (linSolve : (Fin n → ℝ) → Fin n → ℝ) : AdmmState m n × ℕ :=
  admmLoop opts A b linSolve opts.max_num_iterations ⟨x0, 0, 0, 0⟩

/-- The trace of ADMM states: `admmSeq i` is the state after `i` loop
iterations, ignoring the break (used to phrase termination claims). -/
noncomputable def admmSeq {m n : ℕ} (opts : L1SolverOptions)
    (A : Matrix (Fin m) (Fin n) ℝ) (b : Fin m → ℝ) (x0 : Fin n → ℝ)
    (linSolve : (Fin n → ℝ) → Fin n → ℝ) : ℕ → AdmmState m n
  | 0 => ⟨x0, 0, 0, 0⟩
  | i + 1 => admmIter opts A b linSolve (admmSeq opts A b x0 linSolve i)

/-- The convergence test at the end of iteration `i` of the run. -/
noncomputable def admmCondAt {m n : ℕ} (opts : L1SolverOptions)
    (A : Matrix (Fin m) (Fin n) ℝ) (b : Fin m → ℝ) (x0 : Fin n → ℝ)
    (linSolve : (Fin n → ℝ) → Fin n → ℝ) (i : ℕ) : Prop :=
  admmConverged opts A b (admmSeq opts A b x0 linSolve (i + 1))

/-! ## Rotation math

`geometry/rotation_utils` and the ceres conversions are not among the
available sources; they are modelled from the spec (section 4.1). -/

/-- The cross-product (skew-symmetric) matrix of a 3-vector. -/
noncomputable def crossMat (a : V3) : Matrix (Fin 3) (Fin 3) ℝ :=
  Matrix.of ![![0, -a 2, a 1], ![a 2, 0, -a 0], ![-a 1, a 0, 0]]

/-- Modelled from the spec: `ceres::AngleAxisToRotationMatrix` (not under
the available sources); Rodrigues formula, spec section 4.1. -/
noncomputable def angleAxisToRotationMatrix (v : V3) : Matrix (Fin 3) (Fin 3) ℝ :=
  let θ := vnorm v
  if θ = 0 then 1
  else
    let a : V3 := fun i => v i / θ
    Real.cos θ • (1 : Matrix (Fin 3) (Fin 3) ℝ) +
      (1 - Real.cos θ) • Matrix.of (fun p q => a p * a q) +
      Real.sin θ • crossMat a

/-- Modelled from the spec: `ceres::RotationMatrixToAngleAxis` (not under
the available sources); the angle is `arccos((tr R - 1)/2)` and the axis is
read off the skew part, with the zero-angle rotation mapped to the zero
vector (spec: axis-angle of the identity is zero). -/
noncomputable def rotationMatrixToAngleAxis (R : Matrix (Fin 3) (Fin 3) ℝ) : V3 :=
  let θ := Real.arccos ((Matrix.trace R - 1) / 2)
  if θ = 0 then 0
  else fun i =>
    θ / (2 * Real.sin θ) * (![R 2 1 - R 1 2, R 0 2 - R 2 0, R 1 0 - R 0 1] i)

/-- Modelled from the spec: `geometry::MultiplyRotations`
(`geometry/rotation_utils`, not under the available sources); spec 4.1:
axis-angle composition is the axis-angle of the rotation matrix product. -/
noncomputable def multiplyRotations (a b : V3) : V3 :=
  rotationMatrixToAngleAxis (angleAxisToRotationMatrix a * angleAxisToRotationMatrix b)

/-! ## IRLS local refiner (`irls_rotation_local_refiner.cc`)

The view-id to dense-index map (built by `internal::ViewIdToAscentIndex`
when not supplied) and the sparse system (`internal::SetupLinearSystem`)
come from `rotation_averaging/internal/rotation_estimator_util`, which is
not among the available sources; the map is taken as a parameter (the
`SetViewIdToIndex` path).  The custom `SparseCholeskyLLt` backend is also
not available: its per-operation status (`Info()`) and the solved step
vectors are supplied by an `IRLSOracle`. -/

/-- `kConstantRotationIndex`.  Modelled from the spec: declared in
`rotation_averaging/rotation_estimator.h` (not among the available
sources); the gauge anchor is the dense index 0, whose shifted index
`index - 1` is `-1` (spec section 3). -/
def kConstantRotationIndex : ℤ := -1

/-- `IRLSRefinerOptions` (the fields used by `SolveIRLS`). -/
structure IRLSRefinerOptions where
  max_num_irls_iterations : ℕ
  irls_loss_parameter_sigma : ℝ
  irls_step_convergence_threshold : ℝ
  num_threads : ℕ

/-- Outcomes of the sparse Cholesky backend operations during a
`SolveIRLS` run: whether `AnalyzePattern`, and each iteration's
`Factorize` and `Solve`, report `Eigen::Success`, and the step vector
(as a list of per-view 3-blocks) returned by each iteration's solve. -/
structure IRLSOracle where
  analyzeOk : Bool
  factorizeOk : ℕ → Bool
  solveOk : ℕ → Bool
  solveResult : ℕ → List V3

/-- The per-edge IRLS weights (`SolveIRLS`, lines 83-90): for each edge,
`w = σ / ((e² + σ·σ)·(e² + σ·σ))` with `e²` the squared norm of the edge's
3-vector residual, broadcast to the edge's three rows. -/
noncomputable def computeWeights (σ : ℝ) : List V3 → List ℝ
  | [] => []
  | r :: rs =>
    let tmp := sqnorm r + σ * σ
    let w := σ / (tmp * tmp)
    w :: w :: w :: computeWeights σ rs

/-- `IRLSRotationLocalRefiner::ComputeResiduals` (lines 144-163): for each
relative rotation `(i, j) ↦ r_ij`, the residual is
`MultiplyRotations(-r_j, MultiplyRotations(r_ij, r_i))`. -/
noncomputable def computeResiduals (relPairs : List ((ℕ × ℕ) × V3))
    (rot : ℕ → V3) : List V3 :=
  relPairs.map fun e =>
    multiplyRotations (-rot e.1.2) (multiplyRotations e.2 (rot e.1.1))

/-- `IRLSRotationLocalRefiner::UpdateGlobalRotations` (lines 129-142):
every view whose shifted index `view_id_to_index - 1` is not the constant
rotation index is composed on the manifold with its 3-block of the
tangent-space step. -/
noncomputable def updateGlobalRotations (idx : ℕ → ℤ) (step : List V3)
    (ids : List ℕ) (rot : ℕ → V3) : ℕ → V3 :=
  fun v =>
    if v ∈ ids then
      let viewIndex : ℤ := idx v - 1
      if viewIndex = kConstantRotationIndex then rot v
      else multiplyRotations (rot v) (step.getD viewIndex.toNat 0)
    else rot v

/-- `IRLSRotationLocalRefiner::ComputeAverageStepSize` (lines 165-173):
the sum of the norms of the per-view 3-blocks of `tangent_space_step_`
divided by the number of blocks (`tangent_space_step_.size() / 3`). -/
noncomputable def computeAverageStepSize (step : List V3) : ℝ :=
  (step.map vnorm).sum / step.length

/-- Follows the claim's words (C4): the average step size as
`(1/V) · Σ ‖Δ_i‖` with `V` the number of views. -/
noncomputable def specAverageStepSize (numViews : ℕ) (step : List V3) : ℝ :=
  (1 / (numViews : ℝ)) * (step.map vnorm).sum

/-- The number of 3-blocks of `tangent_space_step_` as sized by the
constructor (lines 17-25): `(num_orientations - 1)`, one less than the
number of views because one rotation is held constant. -/
def irlsNumTangentBlocks (numOrientations : ℕ) : ℕ := numOrientations - 1

/-- Result of a `SolveIRLS` run: the returned boolean, whether some
Cholesky operation reported non-success during the run (instrumentation),
the number of loop iterations entered, and the final rotation map. -/
structure IRLSOutcome where
  retval : Bool
  failed : Bool
  iters : ℕ
  rotations : ℕ → V3

/-- The iteration loop of `SolveIRLS` (lines 81-121), by fuel, carrying
the iteration index `i`, the rotation map and the residual vector:
compute the IRLS weights, re-factorize (abort returning false on
non-success), solve for the step (abort returning false on non-success),
update the rotations, recompute residuals, and break returning true when
the average step size falls below the convergence threshold.  Exhausting
`max_num_irls_iterations` also returns true. -/
noncomputable def irlsLoop (opts : IRLSRefinerOptions) (oracle : IRLSOracle)
    (relPairs : List ((ℕ × ℕ) × V3)) (idx : ℕ → ℤ) (ids : List ℕ) :
    ℕ → ℕ → (ℕ → V3) → List V3 → IRLSOutcome
  | 0, i, rot, _res => ⟨true, false, i, rot⟩
  | fuel + 1, i, rot, res =>
    let _weights := computeWeights opts.irls_loss_parameter_sigma res
    if oracle.factorizeOk i = false then ⟨false, true, i + 1, rot⟩
    else if oracle.solveOk i = false then ⟨false, true, i + 1, rot⟩
    else
      let step := oracle.solveResult i
      let rot' := updateGlobalRotations idx step ids rot
      let res' := computeResiduals relPairs rot'
      if computeAverageStepSize step < opts.irls_step_convergence_threshold then
        ⟨true, false, i + 1, rot'⟩
      else irlsLoop opts oracle relPairs idx ids fuel (i + 1) rot' res'

/-- `IRLSRotationLocalRefiner::SolveIRLS` (lines 42-127): analyze the
pattern of `AᵀA` (return false on non-success), compute the initial
residuals, then run the IRLS loop. -/
noncomputable def solveIRLS (opts : IRLSRefinerOptions) (oracle : IRLSOracle)
    (relPairs : List ((ℕ × ℕ) × V3)) (idx : ℕ → ℤ) (ids : List ℕ)
    (rot0 : ℕ → V3) : IRLSOutcome :=
  if oracle.analyzeOk = false then ⟨false, true, 0, rot0⟩
  else
    let res0 := computeResiduals relPairs rot0
    irlsLoop opts oracle relPairs idx ids opts.max_num_irls_iterations 0 rot0 res0

/-! ## Lagrange-dual estimator (`lagrange_dual_rotation_estimator.cc`)

`dim_` is instantiated at 3 (the `3V × 3V` block matrix of spec section 3).
The SDP backends (`solver/rbr_sdp_solver.h` etc.) and the Spectra
eigensolver are not among the available sources; the backend's solution is
supplied by an `SDPOracle` and the eigensolver's outcome by an
`EigsOutcome`.  The view-id to dense-index map is a parameter, as for the
refiner. -/

/-- The fields of `LagrangeDualRotationEstimator` touched by the embedded
methods: the relative-rotation block matrix `R_`, the solution `Y_` and
the error bound `alpha_max_`. -/
structure LDState (N : ℕ) where
  R : Matrix (Fin (3 * N)) (Fin (3 * N)) ℝ
  Y : Matrix (Fin 3) (Fin (3 * N)) ℝ
  alpha_max : ℝ

/-- The constructor (lines 48-53): `R_` is the empty sparse matrix and
`alpha_max_ = 0.0` (`Y_` starts default-initialized, modelled as 0). -/
noncomputable def ldInit (N : ℕ) : LDState N := ⟨0, 0, 0⟩

/-- `LagrangeDualRotationEstimator::GetErrorBound` (lines 69-71). -/
def ldGetErrorBound {N : ℕ} (s : LDState N) : ℝ := s.alpha_max

/-- A matrix holding value `v` at entry `(i, j)` and 0 elsewhere (one
Eigen triplet; `setFromTriplets` sums duplicate triplets, modelled by
matrix addition). -/
noncomputable def singleEntry {N : ℕ} (i j : Fin N) (v : ℝ) :
    Matrix (Fin N) (Fin N) ℝ :=
  Matrix.of fun p q => if p = i ∧ q = j then v else 0

/-- The vertex degrees of the view graph (`ComputeErrorBound`,
lines 116-122): each view pair increments the degree of both endpoints. -/
def ldDegrees {N : ℕ} (idx : ℕ → Fin N) (pairs : List ((ℕ × ℕ) × V3)) :
    Fin N → ℕ :=
  fun v =>
    (pairs.map fun e =>
      (if idx e.1.1 = v then 1 else 0) + (if idx e.1.2 = v then 1 else 0)).sum

/-- The adjacency matrix `A` assembled from the triplets `(i, j, 1)` and
`(j, i, 1)` pushed per view pair (lines 130-131, 137-138). -/
noncomputable def ldAdjacency {N : ℕ} (idx : ℕ → Fin N)
    (pairs : List ((ℕ × ℕ) × V3)) : Matrix (Fin N) (Fin N) ℝ :=
  pairs.foldl
    (fun M e => M + singleEntry (idx e.1.1) (idx e.1.2) 1 +
      singleEntry (idx e.1.2) (idx e.1.1) 1) 0

/-- The matrix `D` assembled from the triplets `(i, i, degrees[i])` and
`(j, j, degrees[j])` pushed per view pair (lines 133-134, 139-140) —
`setFromTriplets` sums the duplicates. -/
noncomputable def ldDegreeMatrix {N : ℕ} (idx : ℕ → Fin N)
    (pairs : List ((ℕ × ℕ) × V3)) : Matrix (Fin N) (Fin N) ℝ :=
  let deg := ldDegrees idx pairs
  pairs.foldl
    (fun M e => M + singleEntry (idx e.1.1) (idx e.1.1) (deg (idx e.1.1) : ℝ) +
      singleEntry (idx e.1.2) (idx e.1.2) (deg (idx e.1.2) : ℝ)) 0

/-- The matrix `L = D - A` built by `ComputeErrorBound` (line 143). -/
noncomputable def ldLaplacian {N : ℕ} (idx : ℕ → Fin N)
    (pairs : List ((ℕ × ℕ) × V3)) : Matrix (Fin N) (Fin N) ℝ :=
  ldDegreeMatrix idx pairs - ldAdjacency idx pairs

/-- Follows the claim's words (C6): the unweighted graph Laplacian
`L = D - A` with `D` the diagonal matrix of vertex degrees. -/
noncomputable def specGraphLaplacian {N : ℕ} (idx : ℕ → Fin N)
    (pairs : List ((ℕ × ℕ) × V3)) : Matrix (Fin N) (Fin N) ℝ :=
  Matrix.diagonal (fun v => (ldDegrees idx pairs v : ℝ)) - ldAdjacency idx pairs

/-- `max_degree` (lines 124-135): the running maximum of the degrees of
the endpoints of every view pair, starting from 0. -/
def ldMaxDegree {N : ℕ} (idx : ℕ → Fin N) (pairs : List ((ℕ × ℕ) × V3)) : ℕ :=
  pairs.foldl
    (fun m e => max (max m (ldDegrees idx pairs (idx e.1.1)))
      (ldDegrees idx pairs (idx e.1.2))) 0

/-- Outcome of the Spectra eigensolver run (`SymEigsSolver` over the
built matrix, lines 146-151; Spectra is not among the available sources):
whether `info()` is `SUCCESSFUL`, and the `eigenvalues()` array. -/
structure EigsOutcome where
  success : Bool
  values : ℕ → ℝ

/-- `LagrangeDualRotationEstimator::ComputeErrorBound` (lines 104-163):
build `L = D - A`, run the eigensolver on it (outcome supplied by `eigs`),
take `lambda2 = eigenvalues()[0]` on success and `lambda2 = 0` otherwise
(the failure is only logged), and set
`alpha_max_ = 2·asin(√(0.25 + λ₂/(2·max_degree)) - 0.5)`. -/
noncomputable def ldComputeErrorBound {N : ℕ} (idx : ℕ → Fin N)
    (pairs : List ((ℕ × ℕ) × V3)) (eigs : EigsOutcome) (s : LDState N) :
    LDState N :=
  let _L := ldLaplacian idx pairs
  let lambda2 := if eigs.success then eigs.values 0 else 0
  let maxDegree : ℝ := (ldMaxDegree idx pairs : ℝ)
  ⟨s.R, s.Y,
    2 * Real.arcsin (Real.sqrt (1 / 4 + lambda2 / (2 * maxDegree)) - 1 / 2)⟩

/-- The contribution of one view pair to the block matrix `R_`
(`FillinRelativeGraph`, lines 198-208): triplets
`(3i + l, 3j + r) ↦ R_ij(r, l)` and `(3j + l, 3i + r) ↦ R_ij(l, r)`. -/
noncomputable def ldEdgeContribution {N : ℕ} (idx : ℕ → Fin N)
    (e : (ℕ × ℕ) × V3) : Matrix (Fin (3 * N)) (Fin (3 * N)) ℝ :=
  let i := (idx e.1.1 : ℕ)
  let j := (idx e.1.2 : ℕ)
  let Rij := angleAxisToRotationMatrix e.2
  Matrix.of fun p q =>
    (if (p : ℕ) / 3 = i ∧ (q : ℕ) / 3 = j then
      Rij ⟨(q : ℕ) % 3, Nat.mod_lt _ (by norm_num)⟩
          ⟨(p : ℕ) % 3, Nat.mod_lt _ (by norm_num)⟩ else 0) +
    (if (p : ℕ) / 3 = j ∧ (q : ℕ) / 3 = i then
      Rij ⟨(p : ℕ) % 3, Nat.mod_lt _ (by norm_num)⟩
          ⟨(q : ℕ) % 3, Nat.mod_lt _ (by norm_num)⟩ else 0)

/-- `LagrangeDualRotationEstimator::FillinRelativeGraph` (lines 185-215):
`R_` is assembled from the per-pair triplets (`setFromTriplets` sums). -/
noncomputable def ldFillinRelativeGraph {N : ℕ} (idx : ℕ → Fin N)
    (pairs : List ((ℕ × ℕ) × V3)) : Matrix (Fin (3 * N)) (Fin (3 * N)) ℝ :=
  pairs.foldl (fun M e => M + ldEdgeContribution idx e) 0

/-- The solution returned by the SDP backend's `Solve`/`GetSolution`
(the backends are not among the available sources). -/
structure SDPOracle (N : ℕ) where
  solution : Matrix (Fin 3) (Fin (3 * N)) ℝ

/-- `LagrangeDualRotationEstimator::RetrieveRotations` (lines 165-183):
for every view in the rotation map, extract `Y.block(0, 3i, 3, 3)ᵀ`,
negate it if its determinant is negative, convert to axis-angle, and
overwrite the map entry. -/
noncomputable def ldRetrieveRotations {N : ℕ} (idx : ℕ → Fin N)
    (Y : Matrix (Fin 3) (Fin (3 * N)) ℝ) (ids : List ℕ) (rot : ℕ → V3) :
    ℕ → V3 :=
  fun v =>
    if v ∈ ids then
      let i := (idx v : ℕ)
      let R0 : Matrix (Fin 3) (Fin 3) ℝ :=
        Matrix.of fun a b =>
          Y b ⟨3 * i + (a : ℕ), by omega⟩
      let R := if R0.det < 0 then -R0 else R0
      rotationMatrixToAngleAxis R
    else rot v

/-- `LagrangeDualRotationEstimator::EstimateRotations` (lines 73-102):
fill in `R_`, hand it to the SDP backend (modelled by the oracle; the
dispatch on `solver_type` is `ldCreateSDPSolver` below), store the
backend's solution in `Y_`, retrieve the rotations, and return `true`
— unconditionally; `alpha_max_` is not touched. -/
noncomputable def ldEstimateRotations {N : ℕ} (s : LDState N)
    (idx : ℕ → Fin N) (pairs : List ((ℕ × ℕ) × V3)) (ids : List ℕ)
    (rot : ℕ → V3) (oracle : SDPOracle N) :
    (LDState N × (ℕ → V3)) × Bool :=
  let R' := ldFillinRelativeGraph idx pairs
  let Y' := oracle.solution
  let rot' := ldRetrieveRotations idx Y' ids rot
  ((⟨R', Y', s.alpha_max⟩, rot'), true)

/-- `solver::SDPSolverType`.  The enum declaration
(`solver/sdp_solver.h`) is not among the available sources; the three
enumerators handled by the `switch` in `CreateSDPSolver` are modelled
from the spec (section 6), and `OTHER_TYPE` stands for any further value
of the underlying C++ enum, reaching the switch's `default` branch. -/
inductive SDPSolverType
  | RBR_BCM
  | RANK_DEFICIENT_BCM
  | RIEMANNIAN_STAIRCASE
  | OTHER_TYPE
deriving DecidableEq

/-- The concrete backend object constructed by `CreateSDPSolver`. -/
inductive SDPSolverKind
  | rbrSDPSolver
  | rankRestrictedSDPSolver
  | riemannianStaircase
deriving DecidableEq

/-- `LagrangeDualRotationEstimator::CreateSDPSolver` (lines 217-238):
dispatch on `options_.solver_type`; the `default` branch returns the null
pointer, modelled as `none`. -/
def ldCreateSDPSolver (t : SDPSolverType) : Option SDPSolverKind :=
  match t with
  | .RBR_BCM => some .rbrSDPSolver
  | .RANK_DEFICIENT_BCM => some .rankRestrictedSDPSolver
  | .RIEMANNIAN_STAIRCASE => some .riemannianStaircase
  | .OTHER_TYPE => none

/-- Whether the four unchecked uses of the created solver in
`EstimateRotations` (lines 89-93: `SetCovariance`, `SetAdjacentEdges`,
`Solve`, `GetSolution`) dereference a null pointer. -/
def ldEstimateRotationsDerefsNull (t : SDPSolverType) : Bool :=
  (ldCreateSDPSolver t).isNone

/-! ## Theorems -/

/-- Claim C10: `CreateSDPSolver` returns a non-null solver exactly for the
three supported `solver_type` values (`RBR_BCM`, `RANK_DEFICIENT_BCM`,
`RIEMANNIAN_STAIRCASE`), so the unchecked dereferences in
`EstimateRotations` never hit a null pointer for those values; any other
value yields a null pointer and the dereference is unguarded. -/
theorem claim10_create_sdp_solver (t : SDPSolverType) :
    ((ldCreateSDPSolver t).isSome ↔
      t = SDPSolverType.RBR_BCM ∨ t = SDPSolverType.RANK_DEFICIENT_BCM ∨
        t = SDPSolverType.RIEMANNIAN_STAIRCASE) ∧
    (ldEstimateRotationsDerefsNull t = true ↔ t = SDPSolverType.OTHER_TYPE) := by
  cases t <;> simp [ldCreateSDPSolver, ldEstimateRotationsDerefsNull]

/-- Claim C8: the z-update's shrinkage operator equals the elementwise
soft-threshold `sign(v)·max(|v| - κ, 0)` whenever `κ ≥ 0`, and within one
ADMM iteration `z` is assigned `shrink(ŷ - b + u, 1/ρ)` after `z_old`
receives the previous `z`. -/
theorem claim8_shrinkage_soft_threshold {m n : ℕ} (v : Fin m → ℝ) (κ : ℝ)
    (hκ : 0 ≤ κ) (i : Fin m) (opts : L1SolverOptions)
    (A : Matrix (Fin m) (Fin n) ℝ) (b : Fin m → ℝ)
    (linSolve : (Fin n → ℝ) → Fin n → ℝ) (s : AdmmState m n) :
    shrinkage v κ i = Real.sign (v i) * max (|v i| - κ) 0 ∧
    (admmIter opts A b linSolve s).z =
      shrinkage (admmAxhat opts A b linSolve s - b + s.u) (1 / opts.rho) ∧
    (admmIter opts A b linSolve s).zOld = s.z := by
  refine ⟨?_, rfl, rfl⟩
  rcases lt_trichotomy (v i) 0 with hv | hv | hv
  · have h1 : max 0 (v i - κ) = 0 := max_eq_left (by linarith)
    have h2 : max (|v i| - κ) 0 = max 0 (-v i - κ) := by
      rw [abs_of_neg hv, max_comm]
    rw [Real.sign_of_neg hv]
    show max 0 (v i - κ) - max 0 (-v i - κ) = -1 * max (|v i| - κ) 0
    rw [h1, h2]; ring
  · show max 0 (v i - κ) - max 0 (-v i - κ) = Real.sign (v i) * max (|v i| - κ) 0
    rw [hv, Real.sign_zero]; ring_nf
  · have h1 : max 0 (-v i - κ) = 0 := max_eq_left (by linarith)
    have h2 : max (|v i| - κ) 0 = max 0 (v i - κ) := by
      rw [abs_of_pos hv, max_comm]
    rw [Real.sign_of_pos hv]
    show max 0 (v i - κ) - max 0 (-v i - κ) = 1 * max (|v i| - κ) 0
    rw [h1, h2]; ring

/-- Witness for C8 at `v = (3)`, `κ = 1`. -/
theorem claim8_witness :
    (0 : ℝ) ≤ 1 ∧
    shrinkage (fun _ : Fin 1 => (3 : ℝ)) 1 0 =
      Real.sign ((fun _ : Fin 1 => (3 : ℝ)) 0) *
        max (|(fun _ : Fin 1 => (3 : ℝ)) 0| - 1) 0 :=
  ⟨by norm_num,
    (claim8_shrinkage_soft_threshold (fun _ => 3) 1 (by norm_num) 0
      defaultL1Options (1 : Matrix (Fin 1) (Fin 1) ℝ) 0 (fun w => w)
      ⟨0, 0, 0, 0⟩).1⟩

/-- The first three entries of `computeWeights` on a cons. -/
theorem computeWeights_cons_get (σ : ℝ) (r : V3) (rs : List V3) (j : ℕ)
    (hj : j < 3) :
    (computeWeights σ (r :: rs))[j]? =
      some (σ / ((sqnorm r + σ * σ) * (sqnorm r + σ * σ))) := by
  interval_cases j <;> simp [computeWeights]

/-- Claim C9: for every edge `k`, each of the three weight entries
`3k, 3k+1, 3k+2` equals `σ / (‖e_k‖² + σ²)²`, i.e. the per-edge scalar is
broadcast to the edge's three rows. -/
theorem claim9_irls_weights (σ : ℝ) (res : List V3) (k j : ℕ)
    (hk : k < res.length) (hj : j < 3) :
    (computeWeights σ res)[3 * k + j]? =
      some (σ / (sqnorm (res.getD k 0) + σ ^ 2) ^ 2) := by
  induction res generalizing k with
  | nil => simp at hk
  | cons r rs ih =>
    cases k with
    | zero =>
      rw [show 3 * 0 + j = j by ring, computeWeights_cons_get σ r rs j hj]
      have : σ / ((sqnorm r + σ * σ) * (sqnorm r + σ * σ)) =
          σ / (sqnorm ((r :: rs).getD 0 0) + σ ^ 2) ^ 2 := by
        rw [List.getD_cons_zero]; ring_nf
      rw [this]
    | succ k' =>
      have hcw : computeWeights σ (r :: rs) =
          (σ / ((sqnorm r + σ * σ) * (sqnorm r + σ * σ))) ::
          (σ / ((sqnorm r + σ * σ) * (sqnorm r + σ * σ))) ::
          (σ / ((sqnorm r + σ * σ) * (sqnorm r + σ * σ))) ::
          computeWeights σ rs := rfl
      rw [show 3 * (k' + 1) + j = (3 * k' + j) + 1 + 1 + 1 by ring, hcw,
        List.getElem?_cons_succ, List.getElem?_cons_succ,
        List.getElem?_cons_succ, List.getD_cons_succ]
      exact ih k' (by simpa using hk)

/-- Witness for C9 at `σ = 1` and a single zero-residual edge. -/
theorem claim9_witness :
    0 < ([(0 : V3)] : List V3).length ∧ (0 : ℕ) < 3 ∧
    (computeWeights 1 [(0 : V3)])[3 * 0 + 0]? =
      some (1 / (sqnorm (([(0 : V3)] : List V3).getD 0 0) + 1 ^ 2) ^ 2) :=
  ⟨by norm_num, by norm_num,
    claim9_irls_weights 1 [(0 : V3)] 0 0 (by norm_num) (by norm_num)⟩

/-- In every branch of the IRLS loop, the returned boolean is the negation
of the failure flag: the loop returns `false` exactly when a factorize or
solve call reports non-success, and `true` on convergence or on reaching
the iteration cap. -/
theorem irlsLoop_retval_eq_not_failed (opts : IRLSRefinerOptions)
    (oracle : IRLSOracle) (relPairs : List ((ℕ × ℕ) × V3)) (idx : ℕ → ℤ)
    (ids : List ℕ) :
    ∀ fuel i rot res,
      (irlsLoop opts oracle relPairs idx ids fuel i rot res).retval =
        !(irlsLoop opts oracle relPairs idx ids fuel i rot res).failed := by
  intro fuel
  induction fuel with
  | zero => intro i rot res; rfl
  | succ f ih =>
    intro i rot res
    by_cases h1 : oracle.factorizeOk i = false
    · simp [irlsLoop, h1]
    · by_cases h2 : oracle.solveOk i = false
      · simp [irlsLoop, h1, h2]
      · by_cases h3 : computeAverageStepSize (oracle.solveResult i) <
            opts.irls_step_convergence_threshold
        · simp [irlsLoop, h1, h2, h3]
        · simp [irlsLoop, h1, h2, h3, ih]

/-- Claim C1 (amended): `SolveIRLS` returns `false` exactly when a sparse
Cholesky operation (pattern analysis, or an iteration's factorization or
solve) reports non-success, and returns `true` otherwise; the
Lagrange-dual `EstimateRotations` returns `true` unconditionally. -/
theorem claim1_failure_return :
    (∀ (opts : IRLSRefinerOptions) (oracle : IRLSOracle)
        (relPairs : List ((ℕ × ℕ) × V3)) (idx : ℕ → ℤ) (ids : List ℕ)
        (rot0 : ℕ → V3),
      (solveIRLS opts oracle relPairs idx ids rot0).retval =
        !(solveIRLS opts oracle relPairs idx ids rot0).failed) ∧
    (∀ (N : ℕ) (s : LDState N) (idx : ℕ → Fin N)
        (pairs : List ((ℕ × ℕ) × V3)) (ids : List ℕ) (rot : ℕ → V3)
        (oracle : SDPOracle N),
      (ldEstimateRotations s idx pairs ids rot oracle).2 = true) := by
  constructor
  · intro opts oracle relPairs idx ids rot0
    by_cases h : oracle.analyzeOk = false
    · simp [solveIRLS, h]
    · simp [solveIRLS, h, irlsLoop_retval_eq_not_failed]
  · intro N s idx pairs ids rot oracle
    rfl

/-! ### Concrete fixtures for counterexamples -/

/-- A two-view graph with the single edge `(0, 1)` (identity measurement). -/
noncomputable def pairsK2 : List ((ℕ × ℕ) × V3) := [((0, 1), 0)]

/-- The dense index map for the two-view graph. -/
def idxK2 : ℕ → Fin 2 := fun v => if v = 0 then 0 else 1

/-- The ids of the two-view rotation map. -/
def idsK2 : List ℕ := [0, 1]

/-- A failed eigensolver outcome (`info() != SUCCESSFUL`). -/
noncomputable def failEigs : EigsOutcome := ⟨false, fun _ => 37⟩

/-- A successful eigensolver outcome reporting `eigenvalues()[0] = 2`,
the second-smallest eigenvalue of the two-view Laplacian `[[1,-1],[-1,1]]`. -/
noncomputable def eigsK2 : EigsOutcome := ⟨true, fun _ => 2⟩

/-- A trivial SDP backend result for the two-view graph. -/
noncomputable def sdpOracleK2 : SDPOracle 2 := ⟨0⟩

theorem sqrt_one_quarter : Real.sqrt (1 / 4) = 1 / 2 := by
  rw [show (1 / 4 : ℝ) = (1 / 2) ^ 2 by norm_num,
    Real.sqrt_sq (by norm_num : (0 : ℝ) ≤ 1 / 2)]

/-- Claim C1 counterexample: when the eigensolver fails to converge, no
estimator call returns `false`.  `ComputeErrorBound` swallows the failure
(it completes normally, falling back to `lambda2 = 0`, which yields the
bound `2·asin(√(1/4) - 1/2) = 0`), and `EstimateRotations` still returns
`true`. -/
theorem claim1_counterexample :
    ldGetErrorBound (ldComputeErrorBound idxK2 pairsK2 failEigs (ldInit 2)) = 0 ∧
    (ldEstimateRotations (ldInit 2) idxK2 pairsK2 idsK2 (fun _ => 0)
      sdpOracleK2).2 = true := by
  constructor
  · show 2 * Real.arcsin (Real.sqrt (1 / 4 +
      (if failEigs.success then failEigs.values 0 else 0) /
        (2 * (ldMaxDegree idxK2 pairsK2 : ℝ))) - 1 / 2) = 0
    norm_num [failEigs, sqrt_one_quarter, Real.arcsin_zero]
    rw [show Real.sqrt 4 = 2 from by
      rw [show (4 : ℝ) = 2 ^ 2 by norm_num,
        Real.sqrt_sq (by norm_num : (0 : ℝ) ≤ 2)]]
    norm_num
  · rfl

/-- Claim C3 (amended): the Lagrange-dual `EstimateRotations` does not
perform the error-bound computation: `GetErrorBound` returns the same
value after the call as before it (0 from construction unless the caller
separately invokes `ComputeErrorBound`). -/
theorem claim3_amended (N : ℕ) (s : LDState N) (idx : ℕ → Fin N)
    (pairs : List ((ℕ × ℕ) × V3)) (ids : List ℕ) (rot : ℕ → V3)
    (oracle : SDPOracle N) :
    ldGetErrorBound ((ldEstimateRotations s idx pairs ids rot oracle).1.1) =
      ldGetErrorBound s := rfl

/-- Claim C3 counterexample: on the two-view graph, after
`EstimateRotations` on a freshly constructed estimator, `GetErrorBound`
still returns the initial value 0, while the Laplacian-based bound that
`ComputeErrorBound` computes for the same input (with the true
`λ₂ = 2` and `d_max = 1`) is `2·asin(√(5/4) - 1/2) ≠ 0`. -/
theorem claim3_counterexample :
    ldGetErrorBound ((ldEstimateRotations (ldInit 2) idxK2 pairsK2 idsK2
      (fun _ => 0) sdpOracleK2).1.1) = 0 ∧
    ldGetErrorBound (ldComputeErrorBound idxK2 pairsK2 eigsK2
      ((ldEstimateRotations (ldInit 2) idxK2 pairsK2 idsK2 (fun _ => 0)
        sdpOracleK2).1.1)) = 2 * Real.arcsin (Real.sqrt (5 / 4) - 1 / 2) ∧
    2 * Real.arcsin (Real.sqrt (5 / 4) - 1 / 2) ≠ 0 := by
  refine ⟨rfl, ?_, ?_⟩
  · have hmax : ldMaxDegree idxK2 pairsK2 = 1 := by decide
    show 2 * Real.arcsin (Real.sqrt (1 / 4 +
      (if eigsK2.success then eigsK2.values 0 else 0) /
        (2 * (ldMaxDegree idxK2 pairsK2 : ℝ))) - 1 / 2) =
      2 * Real.arcsin (Real.sqrt (5 / 4) - 1 / 2)
    rw [hmax]
    norm_num [eigsK2]
  · have hpos : 0 < 2 * Real.arcsin (Real.sqrt (5 / 4) - 1 / 2) := by
      have h1 : (1 / 2 : ℝ) < Real.sqrt (5 / 4) := by
        rw [show (1 / 2 : ℝ) = Real.sqrt (1 / 4) from sqrt_one_quarter.symm]
        exact Real.sqrt_lt_sqrt (by norm_num) (by norm_num)
      have := Real.arcsin_pos.mpr (by linarith : 0 < Real.sqrt (5 / 4) - 1 / 2)
      linarith
    exact ne_of_gt hpos

/-- `UpdateGlobalRotations` leaves a view whose dense index is 0 (shifted
index `-1 = kConstantRotationIndex`) untouched. -/
theorem updateGlobalRotations_anchor (idx : ℕ → ℤ) (step : List V3)
    (ids : List ℕ) (rot : ℕ → V3) (id0 : ℕ) (h : idx id0 = 0) :
    updateGlobalRotations idx step ids rot id0 = rot id0 := by
  unfold updateGlobalRotations
  by_cases hm : id0 ∈ ids
  · rw [if_pos hm, if_pos (show idx id0 - 1 = kConstantRotationIndex by
      rw [h]; rfl)]
  · rw [if_neg hm]

/-- Through every iteration of the IRLS loop, the rotation of the view at
dense index 0 is unchanged. -/
theorem irlsLoop_anchor (opts : IRLSRefinerOptions) (oracle : IRLSOracle)
    (relPairs : List ((ℕ × ℕ) × V3)) (idx : ℕ → ℤ) (ids : List ℕ)
    (id0 : ℕ) (h : idx id0 = 0) :
    ∀ fuel i rot res,
      (irlsLoop opts oracle relPairs idx ids fuel i rot res).rotations id0 =
        rot id0 := by
  intro fuel
  induction fuel with
  | zero => intro i rot res; rfl
  | succ f ih =>
    intro i rot res
    by_cases h1 : oracle.factorizeOk i = false
    · simp [irlsLoop, h1]
    · by_cases h2 : oracle.solveOk i = false
      · simp [irlsLoop, h1, h2]
      · by_cases h3 : computeAverageStepSize (oracle.solveResult i) <
            opts.irls_step_convergence_threshold
        · simp [irlsLoop, h1, h2, h3,
            updateGlobalRotations_anchor _ _ _ _ _ h]
        · simp [irlsLoop, h1, h2, h3, ih,
            updateGlobalRotations_anchor _ _ _ _ _ h]

/-- Claim C2 (amended): the IRLS refiner never modifies the rotation of
the view at dense index 0 (`SolveIRLS` returns it bit-identical), while
the Lagrange-dual `RetrieveRotations` overwrites every view in the map
from the SDP solution `Y` — for a view in the map its output does not
depend on the input rotations at all. -/
theorem claim2_gauge (opts : IRLSRefinerOptions) (oracle : IRLSOracle)
    (relPairs : List ((ℕ × ℕ) × V3)) (idx : ℕ → ℤ) (ids : List ℕ)
    (rot0 : ℕ → V3) (id0 : ℕ) (h : idx id0 = 0) (N : ℕ)
    (idxN : ℕ → Fin N) (Y : Matrix (Fin 3) (Fin (3 * N)) ℝ)
    (idsN : List ℕ) (r1 r2 : ℕ → V3) (v : ℕ) (hv : v ∈ idsN) :
    (solveIRLS opts oracle relPairs idx ids rot0).rotations id0 = rot0 id0 ∧
    ldRetrieveRotations idxN Y idsN r1 v = ldRetrieveRotations idxN Y idsN r2 v := by
  constructor
  · by_cases ha : oracle.analyzeOk = false
    · simp [solveIRLS, ha]
    · unfold solveIRLS
      rw [if_neg ha]
      exact irlsLoop_anchor opts oracle relPairs idx ids id0 h _ _ _ _
  · unfold ldRetrieveRotations
    rw [if_pos hv, if_pos hv]

/-- The default `IRLSRefinerOptions` (spec section 4.5 / header defaults):
cap 100, `σ = 5°` in radians, threshold `1e-3`, one thread. -/
noncomputable def defaultIRLSOptions : IRLSRefinerOptions :=
  ⟨100, 5 * Real.pi / 180, 1 / 1000, 1⟩

/-- A backend oracle whose Cholesky operations all succeed and whose
solves return a single zero step block (a two-view problem). -/
noncomputable def okOracleK2 : IRLSOracle :=
  ⟨true, fun _ => true, fun _ => true, fun _ => [0]⟩

/-- The initial rotations of the two-view fixture: every view at
axis-angle `(1, 0, 0)`. -/
noncomputable def rotsK2 : ℕ → V3 := fun _ => ![1, 0, 0]

/-- Witness for C2 at the two-view fixture. -/
theorem claim2_witness :
    (fun v => (v : ℤ)) 0 = 0 ∧ 0 ∈ idsK2 ∧
    ((solveIRLS defaultIRLSOptions okOracleK2 pairsK2 (fun v => (v : ℤ))
        idsK2 rotsK2).rotations 0 = rotsK2 0 ∧
      ldRetrieveRotations idxK2 0 idsK2 rotsK2 0 =
        ldRetrieveRotations idxK2 0 idsK2 (fun _ => 0) 0) :=
  ⟨rfl, by decide,
    claim2_gauge defaultIRLSOptions okOracleK2 pairsK2 (fun v => (v : ℤ))
      idsK2 rotsK2 0 rfl 2 idxK2 0 idsK2 rotsK2 (fun _ => 0) 0 (by decide)⟩

/-- The SDP solution whose per-view `3×3` blocks are both the identity
(two views). -/
noncomputable def identY : Matrix (Fin 3) (Fin (3 * 2)) ℝ :=
  Matrix.of fun a b => if (b : ℕ) = (a : ℕ) ∨ (b : ℕ) = (a : ℕ) + 3 then 1 else 0

/-- Claim C2 counterexample: the Lagrange-dual `RetrieveRotations`
overwrites the rotation of the view at dense index 0.  With the identity
SDP solution block, view 0's entry becomes the zero axis-angle, while its
entry before the call was `(1, 0, 0)`. -/
theorem claim2_counterexample :
    ldRetrieveRotations idxK2 identY idsK2 rotsK2 0 ≠ rotsK2 0 := by
  have hblock : (Matrix.of fun (a b : Fin 3) =>
      identY b ⟨3 * ((idxK2 0 : Fin 2) : ℕ) + (a : ℕ), by omega⟩) =
      (1 : Matrix (Fin 3) (Fin 3) ℝ) := by
    ext a b
    fin_cases a <;> fin_cases b <;>
      simp [identY, idxK2, Matrix.one_apply]
  have hone : rotationMatrixToAngleAxis (1 : Matrix (Fin 3) (Fin 3) ℝ) = 0 := by
    unfold rotationMatrixToAngleAxis
    simp only []
    split
    · rfl
    · funext i
      fin_cases i <;> simp [Matrix.one_apply]
  have hval : ldRetrieveRotations idxK2 identY idsK2 rotsK2 0 = 0 := by
    unfold ldRetrieveRotations
    rw [if_pos (show (0 : ℕ) ∈ idsK2 by decide)]
    simp only [hblock]
    rw [Matrix.det_one, if_neg (by norm_num : ¬((1 : ℝ) < 0))]
    exact hone
  rw [hval]
  intro h
  have h0 := congrFun h.symm 0
  simp [rotsK2] at h0

/-- The IRLS loop stops right after the first reached iteration whose
average step size is below the convergence threshold, provided the
Cholesky operations up to that point succeed. -/
theorem irlsLoop_stop (opts : IRLSRefinerOptions) (oracle : IRLSOracle)
    (relPairs : List ((ℕ × ℕ) × V3)) (idx : ℕ → ℤ) (ids : List ℕ) :
    ∀ fuel i0 i rot res, i0 ≤ i → i < i0 + fuel →
      (∀ j, i0 ≤ j → j ≤ i →
        oracle.factorizeOk j = true ∧ oracle.solveOk j = true) →
      (∀ j, i0 ≤ j → j < i →
        ¬ computeAverageStepSize (oracle.solveResult j) <
          opts.irls_step_convergence_threshold) →
      computeAverageStepSize (oracle.solveResult i) <
        opts.irls_step_convergence_threshold →
      (irlsLoop opts oracle relPairs idx ids fuel i0 rot res).iters = i + 1 ∧
      (irlsLoop opts oracle relPairs idx ids fuel i0 rot res).retval = true := by
  intro fuel
  induction fuel with
  | zero =>
    intro i0 i rot res hle hlt
    omega
  | succ f ih =>
    intro i0 i rot res hle hlt hok hnc hconv
    have hfac : ¬ oracle.factorizeOk i0 = false := by
      simp [(hok i0 le_rfl hle).1]
    have hsol : ¬ oracle.solveOk i0 = false := by
      simp [(hok i0 le_rfl hle).2]
    rcases eq_or_lt_of_le hle with heq | hlt2
    · subst heq
      simp [irlsLoop, hfac, hsol, hconv]
    · have hnc0 := hnc i0 le_rfl hlt2
      simp only [irlsLoop]
      simp only [hfac, if_false, ite_false, if_neg hfac, if_neg hsol,
        if_neg hnc0]
      exact ih (i0 + 1) i _ _ hlt2 (by omega)
        (fun j hj1 hj2 => hok j (by omega) hj2)
        (fun j hj1 hj2 => hnc j (by omega) hj2) hconv

/-- Claim C4 (amended): `SolveIRLS` stops right after the first iteration
whose average step size — the sum of the `V - 1` non-anchor 3-block norms
divided by `V - 1` (the number of blocks of `tangent_space_step_`) —
falls strictly below `irls_step_convergence_threshold`. -/
theorem claim4_step_convergence (opts : IRLSRefinerOptions)
    (oracle : IRLSOracle) (relPairs : List ((ℕ × ℕ) × V3)) (idx : ℕ → ℤ)
    (ids : List ℕ) (rot0 : ℕ → V3) (i : ℕ)
    (h1 : oracle.analyzeOk = true)
    (h2 : ∀ j, j ≤ i → oracle.factorizeOk j = true ∧ oracle.solveOk j = true)
    (h3 : ∀ j, j < i → ¬ computeAverageStepSize (oracle.solveResult j) <
      opts.irls_step_convergence_threshold)
    (h4 : computeAverageStepSize (oracle.solveResult i) <
      opts.irls_step_convergence_threshold)
    (h5 : i < opts.max_num_irls_iterations) :
    (solveIRLS opts oracle relPairs idx ids rot0).iters = i + 1 ∧
    (solveIRLS opts oracle relPairs idx ids rot0).retval = true := by
  unfold solveIRLS
  rw [if_neg (by simp [h1])]
  exact irlsLoop_stop opts oracle relPairs idx ids
    opts.max_num_irls_iterations 0 i rot0 _ (Nat.zero_le i) (by omega)
    (fun j _ hj => h2 j hj) (fun j _ hj => h3 j hj) h4

/-- Witness for C4: a two-view run whose first solved step is the zero
block, so the first average step size is 0 and the loop stops after one
iteration. -/
theorem claim4_witness :
    okOracleK2.analyzeOk = true ∧
    computeAverageStepSize (okOracleK2.solveResult 0) <
      defaultIRLSOptions.irls_step_convergence_threshold ∧
    0 < defaultIRLSOptions.max_num_irls_iterations ∧
    (solveIRLS defaultIRLSOptions okOracleK2 pairsK2 (fun v => (v : ℤ))
      idsK2 rotsK2).iters = 0 + 1 := by
  have havg : computeAverageStepSize (okOracleK2.solveResult 0) <
      defaultIRLSOptions.irls_step_convergence_threshold := by
    show computeAverageStepSize [0] < defaultIRLSOptions.irls_step_convergence_threshold
    unfold computeAverageStepSize defaultIRLSOptions
    simp [vnorm_zero]
  refine ⟨rfl, havg, by norm_num [defaultIRLSOptions], ?_⟩
  exact (claim4_step_convergence defaultIRLSOptions okOracleK2 pairsK2
    (fun v => (v : ℤ)) idsK2 rotsK2 0 rfl
    (fun j _ => ⟨rfl, rfl⟩) (fun j hj => absurd hj (Nat.not_lt_zero j)) havg
    (by norm_num [defaultIRLSOptions])).1

/-- The step block `(3, 4, 0)`, of norm 5. -/
noncomputable def stepBlock34 : V3 := ![3, 4, 0]

theorem vnorm_stepBlock34 : vnorm stepBlock34 = 5 := by
  have h : sqnorm stepBlock34 = 25 := by
    simp [sqnorm, stepBlock34, Fin.sum_univ_three]
    norm_num
  unfold vnorm
  rw [h, show (25 : ℝ) = 5 ^ 2 by norm_num,
    Real.sqrt_sq (by norm_num : (0 : ℝ) ≤ 5)]

/-- Claim C4 counterexample: for a problem with `V = 2` views the step
vector has `V - 1 = 1` block; on the step `(3, 4, 0)` the code's average
step size is `5/1 = 5`, while the claim's `(1/V)·Σ‖Δ‖` is `5/2`. -/
theorem claim4_counterexample :
    irlsNumTangentBlocks 2 = 1 ∧
    computeAverageStepSize [stepBlock34] = 5 ∧
    specAverageStepSize 2 [stepBlock34] = 5 / 2 ∧
    (5 : ℝ) ≠ 5 / 2 := by
  refine ⟨rfl, ?_, ?_, by norm_num⟩
  · unfold computeAverageStepSize
    simp [vnorm_stepBlock34]
  · unfold specAverageStepSize
    simp [vnorm_stepBlock34]
    norm_num

/-- When no reached iteration converges, the ADMM loop consumes all its
fuel. -/
theorem admmLoop_exhaust {m n : ℕ} (opts : L1SolverOptions)
    (A : Matrix (Fin m) (Fin n) ℝ) (b : Fin m → ℝ) (x0 : Fin n → ℝ)
    (linSolve : (Fin n → ℝ) → Fin n → ℝ) :
    ∀ fuel i0,
      (∀ j, i0 ≤ j → j < i0 + fuel → ¬ admmCondAt opts A b x0 linSolve j) →
      admmLoop opts A b linSolve fuel (admmSeq opts A b x0 linSolve i0) =
        (admmSeq opts A b x0 linSolve (i0 + fuel), fuel) := by
  intro fuel
  induction fuel with
  | zero => intro i0 h; simp [admmLoop]
  | succ f ih =>
    intro i0 h
    have hs : admmIter opts A b linSolve (admmSeq opts A b x0 linSolve i0) =
        admmSeq opts A b x0 linSolve (i0 + 1) := rfl
    have hnc : ¬ admmConverged opts A b (admmSeq opts A b x0 linSolve (i0 + 1)) :=
      h i0 le_rfl (by omega)
    simp only [admmLoop]
    rw [hs, if_neg hnc, ih (i0 + 1) (fun j hj1 hj2 => h j (by omega) (by omega))]
    rw [show i0 + 1 + f = i0 + (f + 1) by omega]

/-- The ADMM loop stops right after the first reached iteration whose
convergence test holds. -/
theorem admmLoop_stop {m n : ℕ} (opts : L1SolverOptions)
    (A : Matrix (Fin m) (Fin n) ℝ) (b : Fin m → ℝ) (x0 : Fin n → ℝ)
    (linSolve : (Fin n → ℝ) → Fin n → ℝ) :
    ∀ fuel i0 i, i0 ≤ i → i < i0 + fuel →
      (∀ j, i0 ≤ j → j < i → ¬ admmCondAt opts A b x0 linSolve j) →
      admmCondAt opts A b x0 linSolve i →
      admmLoop opts A b linSolve fuel (admmSeq opts A b x0 linSolve i0) =
        (admmSeq opts A b x0 linSolve (i + 1), i + 1 - i0) := by
  intro fuel
  induction fuel with
  | zero => intro i0 i h1 h2; omega
  | succ f ih =>
    intro i0 i hle hlt hnc hcv
    have hs : admmIter opts A b linSolve (admmSeq opts A b x0 linSolve i0) =
        admmSeq opts A b x0 linSolve (i0 + 1) := rfl
    rcases eq_or_lt_of_le hle with heq | hlt2
    · subst heq
      have hcv' : admmConverged opts A b
          (admmSeq opts A b x0 linSolve (i0 + 1)) := hcv
      simp only [admmLoop]
      rw [hs, if_pos hcv', show i0 + 1 - i0 = 1 by omega]
    · have hnc' : ¬ admmConverged opts A b
          (admmSeq opts A b x0 linSolve (i0 + 1)) := hnc i0 le_rfl hlt2
      simp only [admmLoop]
      rw [hs, if_neg hnc',
        ih (i0 + 1) i hlt2 (by omega)
          (fun j hj1 hj2 => hnc j (by omega) hj2) hcv]
      rw [show i + 1 - (i0 + 1) + 1 = i + 1 - i0 by omega]

/-- Claim C5: the L1 ADMM loop terminates early exactly when both the
primal and the dual residual fall below their tolerances
(`ε_primal = √(rows)·ε_abs + ε_rel·max(‖Ax‖, ‖z‖, ‖b‖)`,
`ε_dual = √(cols)·ε_abs + ε_rel·‖ρ·Aᵀu‖`): if no iteration up to the cap
satisfies the test, exactly `max_num_iterations` iterations run; the
first iteration satisfying it ends the loop right there. -/
theorem claim5_admm_termination {m n : ℕ} (opts : L1SolverOptions)
    (A : Matrix (Fin m) (Fin n) ℝ) (b : Fin m → ℝ) (x0 : Fin n → ℝ)
    (linSolve : (Fin n → ℝ) → Fin n → ℝ) :
    ((∀ i, i < opts.max_num_iterations →
        ¬ admmCondAt opts A b x0 linSolve i) →
      (l1Solve opts A b x0 linSolve).2 = opts.max_num_iterations) ∧
    (∀ i, i < opts.max_num_iterations → admmCondAt opts A b x0 linSolve i →
      (∀ j, j < i → ¬ admmCondAt opts A b x0 linSolve j) →
      (l1Solve opts A b x0 linSolve).2 = i + 1 ∧
      (l1Solve opts A b x0 linSolve).1 =
        admmSeq opts A b x0 linSolve (i + 1)) := by
  have hl : l1Solve opts A b x0 linSolve =
      admmLoop opts A b linSolve opts.max_num_iterations
        (admmSeq opts A b x0 linSolve 0) := rfl
  constructor
  · intro h
    rw [hl, admmLoop_exhaust opts A b x0 linSolve _ 0
      (fun j hj1 hj2 => h j (by omega))]
  · intro i hi hcv hnc
    rw [hl, admmLoop_stop opts A b x0 linSolve _ 0 i (Nat.zero_le i)
      (by omega) (fun j hj1 hj2 => hnc j hj2) hcv]
    exact ⟨by omega, rfl⟩

/-- Shrinking the zero vector gives the zero vector. -/
theorem shrinkage_zero {m : ℕ} (κ : ℝ) : shrinkage (0 : Fin m → ℝ) κ = 0 := by
  funext i
  simp [shrinkage]

/-- With `A` the identity and an exact factored solve, one default-option
ADMM iteration from `z = u = 0` produces `x = b`, `z = u = 0`. -/
theorem admmIter_one_id (n : ℕ) (b x0 : Fin n → ℝ) :
    admmIter defaultL1Options (1 : Matrix (Fin n) (Fin n) ℝ) b (fun v => v)
      ⟨x0, 0, 0, 0⟩ = ⟨b, 0, 0, 0⟩ := by
  have hx : admmX (1 : Matrix (Fin n) (Fin n) ℝ) b (fun v => v)
      ⟨x0, 0, 0, 0⟩ = b := by
    unfold admmX
    simp [Matrix.transpose_one, Matrix.one_mulVec]
  have haxhat : admmAxhat defaultL1Options (1 : Matrix (Fin n) (Fin n) ℝ) b
      (fun v => v) ⟨x0, 0, 0, 0⟩ = b := by
    unfold admmAxhat
    rw [hx]
    norm_num [defaultL1Options, Matrix.one_mulVec]
  unfold admmIter
  rw [hx, haxhat]
  simp [defaultL1Options, shrinkage_zero]

/-- With `A` the identity, the state `x = b`, `z = z_old = u = 0` passes
the default-option convergence test (both residuals are 0, both
tolerances positive). -/
theorem admmConverged_one_state (n : ℕ) (hn : 0 < n) (b : Fin n → ℝ) :
    admmConverged defaultL1Options (1 : Matrix (Fin n) (Fin n) ℝ) b
      ⟨b, 0, 0, 0⟩ := by
  unfold admmConverged
  simp only [Matrix.transpose_one, Matrix.one_mulVec, sub_self, sub_zero,
    smul_zero, Matrix.mulVec_zero, vnorm_zero, mul_zero, add_zero]
  have hsq : 0 < Real.sqrt n * defaultL1Options.absolute_tolerance := by
    have h := Real.sqrt_pos.mpr (show (0 : ℝ) < n by exact_mod_cast hn)
    have : defaultL1Options.absolute_tolerance = 1 / 10000 := rfl
    rw [this]
    positivity
  have hmax : 0 ≤ defaultL1Options.relative_tolerance *
      max (max (vnorm b) 0) (vnorm b) := by
    have h1 : (0 : ℝ) ≤ max (max (vnorm b) 0) (vnorm b) :=
      le_trans (vnorm_nonneg b) (le_max_right _ _)
    have h2 : defaultL1Options.relative_tolerance = 1 / 100 := rfl
    rw [h2]
    positivity
  constructor
  · linarith
  · linarith

/-- Claim C7: with `A` the identity matrix (whose exact factored solve is
the identity map) and default options, `Solve(b, &x)` returns `x = b`
exactly, for every `b` and every initial `x`, stopping after the first
iteration. -/
theorem claim7_identity_solve (n : ℕ) (hn : 0 < n) (b x0 : Fin n → ℝ) :
    (l1Solve defaultL1Options (1 : Matrix (Fin n) (Fin n) ℝ) b x0
      (fun v => v)).1.x = b ∧
    (l1Solve defaultL1Options (1 : Matrix (Fin n) (Fin n) ℝ) b x0
      (fun v => v)).2 = 1 := by
  have hseq1 : admmSeq defaultL1Options (1 : Matrix (Fin n) (Fin n) ℝ) b x0
      (fun v => v) 1 = ⟨b, 0, 0, 0⟩ := admmIter_one_id n b x0
  have hcv : admmCondAt defaultL1Options (1 : Matrix (Fin n) (Fin n) ℝ) b x0
      (fun v => v) 0 := by
    show admmConverged defaultL1Options (1 : Matrix (Fin n) (Fin n) ℝ) b
      (admmSeq defaultL1Options (1 : Matrix (Fin n) (Fin n) ℝ) b x0
        (fun v => v) (0 + 1))
    rw [show (0 + 1 : ℕ) = 1 by omega, hseq1]
    exact admmConverged_one_state n hn b
  have h := admmLoop_stop defaultL1Options (1 : Matrix (Fin n) (Fin n) ℝ) b
    x0 (fun v => v) defaultL1Options.max_num_iterations 0 0 le_rfl
    (by norm_num [defaultL1Options])
    (fun j hj1 hj2 => absurd hj2 (Nat.not_lt_zero j)) hcv
  have hl : l1Solve defaultL1Options (1 : Matrix (Fin n) (Fin n) ℝ) b x0
      (fun v => v) =
      (admmSeq defaultL1Options (1 : Matrix (Fin n) (Fin n) ℝ) b x0
        (fun v => v) 1, 1) := by
    show admmLoop defaultL1Options (1 : Matrix (Fin n) (Fin n) ℝ) b
      (fun v => v) defaultL1Options.max_num_iterations
      (admmSeq defaultL1Options (1 : Matrix (Fin n) (Fin n) ℝ) b x0
        (fun v => v) 0) = _
    rw [h]
  rw [hl, hseq1]
  exact ⟨rfl, rfl⟩

/-- Witness for C7 at `n = 1`, `b = (2)`, `x0 = (5)`. -/
theorem claim7_witness :
    0 < 1 ∧
    (l1Solve defaultL1Options (1 : Matrix (Fin 1) (Fin 1) ℝ) ![2] ![5]
      (fun v => v)).1.x = ![2] :=
  ⟨by norm_num, (claim7_identity_solve 1 (by norm_num) ![2] ![5]).1⟩

/-- Witness for C5: with `A` the 1×1 identity and `b = 0`, the
convergence test holds at iteration 0 and the loop stops after one
iteration. -/
theorem claim5_witness :
    (l1Solve defaultL1Options (1 : Matrix (Fin 1) (Fin 1) ℝ) 0 0
      (fun v => v)).2 = 0 + 1 := by
  have hseq1 : admmSeq defaultL1Options (1 : Matrix (Fin 1) (Fin 1) ℝ)
      (0 : Fin 1 → ℝ) 0 (fun v => v) 1 = ⟨0, 0, 0, 0⟩ :=
    admmIter_one_id 1 0 0
  have hcv : admmCondAt defaultL1Options (1 : Matrix (Fin 1) (Fin 1) ℝ) 0 0
      (fun v => v) 0 := by
    show admmConverged defaultL1Options (1 : Matrix (Fin 1) (Fin 1) ℝ) 0
      (admmSeq defaultL1Options (1 : Matrix (Fin 1) (Fin 1) ℝ) 0 0
        (fun v => v) (0 + 1))
    rw [show (0 + 1 : ℕ) = 1 by omega, hseq1]
    exact admmConverged_one_state 1 (by norm_num) 0
  exact ((claim5_admm_termination defaultL1Options
    (1 : Matrix (Fin 1) (Fin 1) ℝ) 0 0 (fun v => v)).2 0
    (by norm_num [defaultL1Options]) hcv
    (fun j hj => absurd hj (Nat.not_lt_zero j))).1

/-- The three-view path graph `0 - 1 - 2` (identity measurements). -/
noncomputable def pairsP3 : List ((ℕ × ℕ) × V3) := [((0, 1), 0), ((1, 2), 0)]

/-- The dense index map for the path graph. -/
def idxP3 : ℕ → Fin 3 := fun v =>
  match v with
  | 0 => 0
  | 1 => 1
  | _ => 2

/-- Claim C6: on the path graph `0 - 1 - 2` the matrix built by
`ComputeErrorBound` is not the graph Laplacian: the degree triplet of
vertex 1 (degree 2) is pushed once per incident edge and
`setFromTriplets` sums duplicates, so the built matrix has entry
`(1,1) = 2 + 2 = 4 = deg²`, whereas the unweighted Laplacian `L = D - A`
of the claim has entry `(1,1) = 2`. -/
theorem claim6_laplacian_entry :
    ldLaplacian idxP3 pairsP3 1 1 = 4 ∧
    specGraphLaplacian idxP3 pairsP3 1 1 = 2 := by
  have hdeg1 : ldDegrees idxP3 pairsP3 1 = 2 := by decide
  have hdeg0 : ldDegrees idxP3 pairsP3 0 = 1 := by decide
  have hdeg2 : ldDegrees idxP3 pairsP3 2 = 1 := by decide
  have hadj : ldAdjacency idxP3 pairsP3 1 1 = 0 := by
    show ((0 : Matrix (Fin 3) (Fin 3) ℝ) +
      singleEntry (idxP3 0) (idxP3 1) 1 + singleEntry (idxP3 1) (idxP3 0) 1 +
      singleEntry (idxP3 1) (idxP3 2) 1 + singleEntry (idxP3 2) (idxP3 1) 1)
      1 1 = 0
    simp only [Matrix.add_apply, Matrix.zero_apply, singleEntry,
      Matrix.of_apply, idxP3]
    norm_num [show ¬(1 : Fin 3) = 0 from by decide,
      show ¬(1 : Fin 3) = 2 from by decide]
  constructor
  · show (ldDegreeMatrix idxP3 pairsP3 - ldAdjacency idxP3 pairsP3) 1 1 = 4
    rw [Matrix.sub_apply, hadj]
    show ((0 : Matrix (Fin 3) (Fin 3) ℝ) +
      singleEntry (idxP3 0) (idxP3 0) (ldDegrees idxP3 pairsP3 (idxP3 0) : ℝ) +
      singleEntry (idxP3 1) (idxP3 1) (ldDegrees idxP3 pairsP3 (idxP3 1) : ℝ) +
      singleEntry (idxP3 1) (idxP3 1) (ldDegrees idxP3 pairsP3 (idxP3 1) : ℝ) +
      singleEntry (idxP3 2) (idxP3 2) (ldDegrees idxP3 pairsP3 (idxP3 2) : ℝ))
      1 1 - 0 = 4
    simp only [Matrix.add_apply, Matrix.zero_apply, singleEntry,
      Matrix.of_apply, idxP3, hdeg0, hdeg1, hdeg2]
    norm_num [show ¬(1 : Fin 3) = 0 from by decide,
      show ¬(1 : Fin 3) = 2 from by decide]
  · show (Matrix.diagonal (fun v => (ldDegrees idxP3 pairsP3 v : ℝ)) -
      ldAdjacency idxP3 pairsP3) 1 1 = 2
    rw [Matrix.sub_apply, hadj, Matrix.diagonal_apply_eq, hdeg1]
    norm_num

end Gopt
